import Mathlib

/-!
Verification of the DCS-controller OPC UA / CANopen gateway
(`dcsControllerServer`, `objectDictionary`, `CANopenForDCSController`,
`mirrorClasses`): a shallow embedding of the SDO engine, the receive queue,
the object dictionary access rules, the monitoring-word packing and the
poll supervisor, together with theorems settling the specification claims.
-/

/-- A CAN frame as it is stored in the receive queue of
`DCSControllerServer`: the tuple `(cobid, data, dlc, flag, t)` pushed by
`readCanMessages` and by the AnaGate callback. -/
structure CanFrame where
  cobid : Nat
  data : List Nat
  dlc : Nat
  flag : Nat
  t : Nat
deriving DecidableEq, Repr

/-- Modelled from the spec: `CANopenConstants.COBID.SDO_RX` (the constants
module is not shipped with the sources; section 3.2 of the spec fixes the
client-to-server SDO identifier as `0x600 + n`). -/
def SDO_RX : Nat := 0x600

/-- Modelled from the spec: `CANopenConstants.COBID.SDO_TX`; section 3.2 of
the spec fixes the server-to-client SDO identifier as `0x580 + n`. -/
def SDO_TX : Nat := 0x580

/-- Modelled from the spec: `CANopenConstants.MAX_DATABYTES`; section 6.1 of
the spec fixes SDO frames at exactly 8 data bytes. -/
def MAX_DATABYTES : Nat := 8

/-- `int.from_bytes(data, 'little')` on a list of byte values. -/
def fromLE (bs : List Nat) : Nat := bs.foldr (fun b acc => b + 256 * acc) 0

/-- The request frame data built by `DCSControllerServer.sdoRead`
(dcsControllerServer.py lines 738-741): `msg = [0]*MAX_DATABYTES`,
`msg[1], msg[2] = index.to_bytes(2, 'little')`, `msg[3] = subindex`,
`msg[0] = 0x40`.  Faithful for `index < 2^16` (beyond that Python's
`to_bytes(2, ...)` raises). -/
def sdoReadRequest (index subindex : Nat) : List Nat :=
  (((((List.replicate MAX_DATABYTES 0).set 1 (index % 256)).set 2
      (index / 256 % 256)).set 3 subindex).set 0 0x40)

/-- The COB-ID the read request is sent to: `coc.COBID.SDO_RX + nodeId`
(dcsControllerServer.py line 737). -/
def sdoReadCobid (nodeId : Nat) : Nat := SDO_RX + nodeId

/-- Command bytes accepted for an SDO read response
(dcsControllerServer.py line 757). -/
def validReadCmds : List Nat := [0x80, 0x43, 0x47, 0x4b, 0x4f]

/-- The `messageValid` predicate of `DCSControllerServer.sdoRead`
(dcsControllerServer.py lines 755-760): matching COB-ID, accepted command
byte, matching little-endian index bytes, matching subindex, `dlc == 8`. -/
def sdoReadMatch (nodeId index subindex : Nat) (fr : CanFrame) : Bool :=
  fr.cobid == SDO_TX + nodeId &&
  validReadCmds.contains (fr.data.getD 0 0) &&
  fromLE [fr.data.getD 1 0, fr.data.getD 2 0] == index &&
  fr.data.getD 3 0 == subindex &&
  fr.dlc == 8

/-- Outcome classification of one `sdoRead` call, mirroring the three exit
paths of dcsControllerServer.py lines 747-781: no matching frame in the
queue within the timeout (`timeout`, counter `SDO read response timeout`),
a matching frame with command byte `0x80` (`abort`, counter
`SDO read abort`), or an expedited response (`success`). -/
inductive SdoReadOutcome where
  | timeout : SdoReadOutcome
  | abort : SdoReadOutcome
  | success : Nat → SdoReadOutcome
deriving DecidableEq, Repr

/-- Response processing of `DCSControllerServer.sdoRead` over the receive
queue (newest frame first, as the deque is scanned left to right):
the first matching frame decides the outcome; on a non-abort match,
`nDatabytes = 4 - ((ret[0] >> 2) & 0b11)` bytes starting at `ret[4]` are
decoded little-endian (dcsControllerServer.py lines 750-781). -/
def sdoReadOutcome (nodeId index subindex : Nat) (queue : List CanFrame) :
    SdoReadOutcome :=
  match queue.find? (sdoReadMatch nodeId index subindex) with
  | none => .timeout
  | some fr =>
    if fr.data.getD 0 0 == 0x80 then .abort
    else
      .success (fromLE ((fr.data.drop 4).take
        (4 - ((fr.data.getD 0 0 >>> 2) &&& 0b11))))

/-- The value returned by `sdoRead`: the decoded integer on success and
`None` on every failure path (dcsControllerServer.py lines 770, 775, 781). -/
def sdoReadReturn (nodeId index subindex : Nat) (queue : List CanFrame) :
    Option Nat :=
  match sdoReadOutcome nodeId index subindex queue with
  | .success v => some v
  | _ => none

/-- Length of `f-string` hex rendering: the number of hexadecimal digits of
`v` (1 for `v = 0`), as used by `len(f-string of value in X format)` in
`DCSControllerServer.sdoWrite` (dcsControllerServer.py line 812). -/
def hexDigits (v : Nat) : Nat :=
  if v < 16 then 1 else hexDigits (v / 16) + 1
decreasing_by exact Nat.div_lt_self (by omega) (by omega)

/-- `datasize = len(f-string of value in X format) // 2 + 1`
(dcsControllerServer.py line 812). -/
def sdoWriteDatasize (value : Nat) : Nat := hexDigits value / 2 + 1

/-- The command byte built by `sdoWrite`
(dcsControllerServer.py line 815):
`msg[0] = (((0b00010 << 2) | (4 - datasize)) << 2) | 0b11`.
Faithful for `datasize <= 4`, i.e. `value < 16^7`; for larger values the
Python subtraction goes negative while this model truncates at zero. -/
def sdoWriteCmd (value : Nat) : Nat :=
  (((0b00010 <<< 2) ||| (4 - sdoWriteDatasize value)) <<< 2) ||| 0b11

/-- `value.to_bytes(4, 'little')` (dcsControllerServer.py line 813);
faithful for `value < 2^32`. -/
def toBytes4LE (v : Nat) : List Nat :=
  [v % 256, v / 256 % 256, v / 256 ^ 2 % 256, v / 256 ^ 3 % 256]

/-- The request frame data built by `DCSControllerServer.sdoWrite`
(dcsControllerServer.py lines 812-818): command byte, little-endian index
bytes, subindex, four little-endian value bytes. -/
def sdoWriteMsg (index subindex value : Nat) : List Nat :=
  [sdoWriteCmd value, index % 256, index / 256 % 256, subindex] ++
    toBytes4LE value

/-- The monitoring word assembled by the controller side in `gather_value`
(CANopenForDCSController.py lines 310-315): validity bit 31, the
temperature field shifted to bits 29..20, voltage1 to bits 19..10 and
voltage2 to bits 9..0, combined with bitwise or.  The parameters are the
raw 10-bit field values (in the source each is `2^9 + randrange(2^5)`). -/
def gatherMonitoring (t v1 v2 : Nat) : Nat :=
  (1 <<< 31) ||| (t <<< 20) ||| (v1 <<< 10) ||| v2

/-- The decoding done by the poll loop of `DCSControllerServer.run`
(dcsControllerServer.py lines 554-555):
`vals = [(monVals >> i * 10) & (2^10 - 1) for i in range(3)]`. -/
def monitoringVals (w : Nat) : List Nat :=
  (List.range 3).map (fun i => (w >>> (i * 10)) &&& (2 ^ 10 - 1))

/-- The 16 characters of the Python format string `f-string of val in 016b
format`: the binary digits of `val`, most significant first, padded to
width 16 (faithful for `val < 2^16`). -/
def bin016 (val : Nat) : List Nat :=
  (List.range 16).map (fun k => val / 2 ^ (15 - k) % 2)

/-- The connected-chip list computed in `DCSControllerServer.run` (lines
545-546) and `getConnectedPSPPs` (lines 879-880):
`[i for i in range(16) if int(reversed 016b string of val at i)]`,
i.e. the chip indices whose digit in the reversed binary string is 1. -/
def connectedPSPPs (val : Nat) : List Nat :=
  (List.range 16).filter (fun i => (bin016 val).reverse.getD i 0 == 1)

/-- The state of one PSPP chip mirror as updated by the poll loop:
the three monitoring values, the status boolean, the 8 ADC channels and
the 13 registers (mirrorClasses.py `MyPSPP`; ADC channels and registers
modelled as functions from channel / register position). -/
structure ChipMirror where
  monitoring : List Nat
  status : Bool
  adc : Nat → Nat
  regs : Nat → Nat

/-- One poll round for a single present chip, mirroring
`DCSControllerServer.run` (dcsControllerServer.py lines 549-583).  Each
SDO read is abstracted as an `Option Nat` (`none` = timeout or abort):
the monitoring triplet is rewritten only when its read succeeds
(`if monVals is not None`), the status is assigned unconditionally as
`bool(sdoRead(...))` (so `none` becomes `false`), and every ADC channel
and register is rewritten only on success (`if val is not None`). -/
def pollChip (monRead statusRead : Option Nat)
    (adcRead regRead : Nat → Option Nat) (st : ChipMirror) : ChipMirror where
  monitoring :=
    match monRead with
    | some w => monitoringVals w
    | none => st.monitoring
  status :=
    match statusRead with
    | some v => v != 0
    | none => false
  adc := fun ch => if ch < 8 then (adcRead ch).getD (st.adc ch) else st.adc ch
  regs := fun r => if r < 13 then (regRead r).getD (st.regs r) else st.regs r

/-- The receive-queue capacity: `deque([], 10)` in
`DCSControllerServer.__init__` (dcsControllerServer.py line 230). -/
def CAN_QUEUE_MAXLEN : Nat := 10

/-- `canMsgQueue.appendleft(frame)` on the bounded deque: the new frame
becomes the head and, at capacity, the oldest frame (the rightmost, since
producers append at the left) is silently discarded
(dcsControllerServer.py lines 230 and 608-609). -/
def queuePush (q : List CanFrame) (fr : CanFrame) : List CanFrame :=
  (fr :: q).take CAN_QUEUE_MAXLEN

/-- The retry counter of `DCSControllerServer.start` after one iteration of
its `while count < 3` loop (dcsControllerServer.py lines 444-491): neither
the success path (which blocks in `run()`) nor the `BusEmptyError` handler
ever assigns to `count`, so an iteration leaves it unchanged. -/
def startAttemptCount (count : Nat) : Nat := count

/-- The retry counter after `n` consecutive `BusEmptyError` iterations of
`start`, beginning from `count = 0` (dcsControllerServer.py line 444). -/
def startRetryCounts : Nat → Nat
  | 0 => 0
  | n + 1 => startAttemptCount (startRetryCounts n)

/-- The loop guard `count < 3` of `DCSControllerServer.start`
(dcsControllerServer.py line 445). -/
def startLoopGuard (count : Nat) : Bool := count < 3

/-- Access attributes of object-dictionary entries
(`CANopenConstants.ATTR`, as used in objectDictionary.py). -/
inductive ATTR where
  | RO : ATTR
  | WO : ATTR
  | RW : ATTR
  | CONST : ATTR
deriving DecidableEq, Repr

/-- A top-level `VAR` entry of the object dictionary (`odEntry`,
objectDictionary.py lines 26-192).  The class keeps two distinct value
slots: `val` models `self.__val` (set from the default in `__init__`, line
81, and returned by the `value` getter, line 184) and `value` models
`self.__value` (assigned by the `value` setter, line 190, and never
initialized before the first set). -/
structure OdEntryVar where
  attr : ATTR
  directAccess : Bool
  val : Option Nat
  value : Option Nat
deriving DecidableEq, Repr

/-- The `odEntry.value` getter (objectDictionary.py lines 178-184): raises
for `WO` entries, otherwise returns `self.__val`. -/
def odEntryGet (e : OdEntryVar) : Except String (Option Nat) :=
  if e.attr = .WO then .error "WO" else .ok e.val

/-- The `odEntry.value` setter (objectDictionary.py lines 186-192): allowed
for `WO`, `RW` or `direct_access`, and assigns `self.__value` (not the
`self.__val` slot the getter reads). -/
def odEntrySet (e : OdEntryVar) (v : Nat) : Except String OdEntryVar :=
  if e.attr = .WO ∨ e.attr = .RW ∨ e.directAccess then
    .ok { e with value := some v }
  else .error "Entry may not be written!"

/-- A subentry of a compound entry (`odSubEntry`, objectDictionary.py lines
234-338).  `attribute` is `none` for reserved slots; `value` models
`self.__value`, initialized from the default (line 275). -/
structure OdSubEntry where
  attr : Option ATTR
  reserved : Bool
  directAccess : Bool
  value : Option Nat
deriving DecidableEq, Repr

/-- The `odSubEntry.value` getter (objectDictionary.py lines 308-317):
raises for `WO` entries and for reserved slots, otherwise returns
`self.__value`. -/
def odSubEntryGet (e : OdSubEntry) : Except String (Option Nat) :=
  if e.attr = some .WO then .error "WO"
  else if e.reserved then .error "reserved"
  else .ok e.value

/-- The `odSubEntry.value` setter (objectDictionary.py lines 319-325):
allowed for `WO`, `RW` or `direct_access`, and assigns the same
`self.__value` slot the getter reads. -/
def odSubEntrySet (e : OdSubEntry) (v : Nat) : Except String OdSubEntry :=
  if e.attr = some .WO ∨ e.attr = some .RW ∨ e.directAccess then
    .ok { e with value := some v }
  else .error "Entry may not be written!"

/-- The SDO read response frame of the end-to-end read scenario:
`cob_id = 0x58A`, `data = [0x4B, 0x00, 0x10, 0x00, 0x92, 0x01, 0, 0]`. -/
def readRespFrame : CanFrame :=
  ⟨0x58A, [0x4B, 0x00, 0x10, 0x00, 0x92, 0x01, 0x00, 0x00], 8, 0, 0⟩

/-- An SDO abort response frame for index `0x2000:0` carrying abort code
`0x06020000` in little-endian bytes 4..8. -/
def abortFrame606 : CanFrame :=
  ⟨0x58A, [0x80, 0x00, 0x20, 0x00, 0x00, 0x00, 0x02, 0x06], 8, 0, 0⟩

/-- An SDO abort response frame for index `0x2000:0` carrying the different
abort code `0x05040001`. -/
def abortFrame504 : CanFrame :=
  ⟨0x58A, [0x80, 0x00, 0x20, 0x00, 0x01, 0x00, 0x04, 0x05], 8, 0, 0⟩

/-- A concrete chip mirror state used to exercise the poll loop. -/
def cmEx : ChipMirror := ⟨[1, 2, 3], true, fun _ => 40, fun _ => 50⟩

/-- A CAN frame with the given COB-ID, used to fill the receive queue. -/
def mkFrame (i : Nat) : CanFrame := ⟨i, [], 0, 0, i⟩

/-! Helper lemmas about bit manipulation on `Nat`. -/

/-- Masking with `2^n - 1` is reduction modulo `2^n`. -/
theorem and_two_pow_sub_one (x n : Nat) : x &&& (2 ^ n - 1) = x % 2 ^ n := by
  apply Nat.eq_of_testBit_eq
  intro i
  rw [Nat.testBit_and, Nat.testBit_two_pow_sub_one, Nat.testBit_mod_two_pow,
    Bool.and_comm]

/-- Bit `i` of `a * 2^k + b` when `b < 2^k`: below `k` it is a bit of `b`,
from `k` on it is a bit of `a`. -/
theorem testBit_mul_pow_add (a b k i : Nat) (hb : b < 2 ^ k) :
    (a * 2 ^ k + b).testBit i =
      if i < k then b.testBit i else a.testBit (i - k) := by
  rcases Nat.lt_or_ge i k with hik | hik
  · rw [if_pos hik, Nat.testBit_to_div_mod, Nat.testBit_to_div_mod]
    have hsplit : a * 2 ^ k = a * 2 ^ (k - i - 1) * 2 * 2 ^ i := by
      rw [Nat.mul_assoc, Nat.mul_assoc, ← Nat.pow_succ', ← Nat.pow_add]
      congr 2
      omega
    rw [hsplit, Nat.add_comm, Nat.add_mul_div_right _ _ (Nat.two_pow_pos i),
      Nat.add_mul_mod_self_right]
  · rw [if_neg (by omega), Nat.testBit_to_div_mod, Nat.testBit_to_div_mod]
    have hsplit : 2 ^ i = 2 ^ k * 2 ^ (i - k) := by
      rw [← Nat.pow_add]
      congr 1
      omega
    rw [hsplit, ← Nat.div_div_eq_div_mul, Nat.add_comm,
      Nat.add_mul_div_right _ _ (Nat.two_pow_pos k),
      Nat.div_eq_of_lt hb, Nat.zero_add]

/-- Bitwise or of a value shifted above `k` bits with a value below `2^k`
is their sum. -/
theorem shiftLeft_lor_eq_add (a b k : Nat) (hb : b < 2 ^ k) :
    (a <<< k) ||| b = a * 2 ^ k + b := by
  apply Nat.eq_of_testBit_eq
  intro i
  rw [Nat.testBit_lor, Nat.testBit_shiftLeft, testBit_mul_pow_add a b k i hb]
  rcases Nat.lt_or_ge i k with hik | hik
  · rw [if_pos hik]
    simp [Nat.not_le.mpr hik]
  · rw [if_neg (by omega)]
    have hbi : b.testBit i = false :=
      Nat.testBit_eq_false_of_lt
        (Nat.lt_of_lt_of_le hb (Nat.pow_le_pow_right (by omega) hik))
    simp [hik, hbi]

/-- The number of hex digits of `v < 16 ^ (k + 1)` is at most `k + 1`. -/
theorem hexDigits_le (k : Nat) :
    ∀ v : Nat, v < 16 ^ (k + 1) → hexDigits v ≤ k + 1 := by
  induction k with
  | zero =>
    intro v hv
    rw [hexDigits, if_pos (by simpa using hv)]
  | succ k ih =>
    intro v hv
    rw [hexDigits]
    split
    · omega
    · have hdiv : v / 16 < 16 ^ (k + 1) := by
        rw [Nat.div_lt_iff_lt_mul (by omega)]
        calc v < 16 ^ (k + 2) := hv
        _ = 16 ^ (k + 1) * 16 := by ring
      have := ih (v / 16) hdiv
      omega

/-- `hexDigits` is always positive. -/
theorem hexDigits_pos (v : Nat) : 1 ≤ hexDigits v := by
  rw [hexDigits]
  split
  · exact Nat.le_refl 1
  · omega

/-- Character `i` of the reversed `016b` format string is binary digit `i`
of `val` (least significant first). -/
theorem bin016_reverse_getD (val i : Nat) (h : i < 16) :
    (bin016 val).reverse.getD i 0 = val / 2 ^ i % 2 := by
  have hlen : (bin016 val).length = 16 := by simp [bin016]
  have hexp : 15 - (16 - 1 - i) = i := by omega
  rw [List.getD_eq_getElem?_getD, List.getElem?_reverse (by omega), hlen]
  rw [bin016, List.getElem?_map,
    List.getElem?_range (show 16 - 1 - i < 16 by omega)]
  simp only [Option.map_some', Option.getD_some, hexp]

/-! The claims. -/

/-- C1 (counterexample): for `write(42, 0x2200, 0x12, 0x55)` the engine
computes `datasize = len(hex digits) // 2 + 1 = 2`, not the minimal byte
count 1, so the request data is `[0x2F, ...]` in the claim but
`[0x2B, 0x00, 0x22, 0x12, 0x55, 0, 0, 0]` in the code. -/
theorem C1_counterexample :
    sdoWriteMsg 0x2200 0x12 0x55 = [0x2B, 0x00, 0x22, 0x12, 0x55, 0, 0, 0] ∧
    sdoWriteMsg 0x2200 0x12 0x55 ≠ [0x2F, 0x00, 0x22, 0x12, 0x55, 0, 0, 0] := by
  have h : hexDigits 0x55 = 2 := by
    rw [hexDigits, if_neg (by omega), hexDigits, if_pos (by omega)]
  have h1 : sdoWriteMsg 0x2200 0x12 0x55 =
      [0x2B, 0x00, 0x22, 0x12, 0x55, 0, 0, 0] := by
    simp [sdoWriteMsg, sdoWriteCmd, sdoWriteDatasize, toBytes4LE, h]
  exact ⟨h1, by rw [h1]; decide⟩

/-- C1 (amended): for every SDO expedited write with `index < 2^16` and
`value < 16^7`, the engine computes `datasize` as the number of hex digits
of `value` divided by two plus one (a value in 1..4 on this domain, but
not the minimal byte count) and sends the 8-byte request
`[0b00100011 | ((4 - datasize) << 2), index lo, index hi, subindex,
value bytes little-endian zero-padded]`. -/
theorem C1_theorem (index subindex value : Nat)
    (hi : index < 2 ^ 16) (hv : value < 16 ^ 7) :
    1 ≤ sdoWriteDatasize value ∧ sdoWriteDatasize value ≤ 4 ∧
    sdoWriteMsg index subindex value =
      [0b00100011 ||| ((4 - sdoWriteDatasize value) <<< 2),
       index % 256, index / 256, subindex,
       value % 256, value / 256 % 256, value / 256 ^ 2 % 256,
       value / 256 ^ 3 % 256] := by
  have hd1 : 1 ≤ sdoWriteDatasize value := by
    rw [sdoWriteDatasize]; omega
  have hd4 : sdoWriteDatasize value ≤ 4 := by
    have := hexDigits_le 6 value hv
    rw [sdoWriteDatasize]; omega
  refine ⟨hd1, hd4, ?_⟩
  have hcmd : sdoWriteCmd value =
      0b00100011 ||| ((4 - sdoWriteDatasize value) <<< 2) := by
    rw [sdoWriteCmd]
    generalize hgen : 4 - sdoWriteDatasize value = s
    have hs : s ≤ 3 := by omega
    interval_cases s <;> decide
  have hidx : index / 256 % 256 = index / 256 := Nat.mod_eq_of_lt (by omega)
  simp [sdoWriteMsg, toBytes4LE, hcmd, hidx]

/-- C1 (witness): the amended statement at the concrete write
`(index, subindex, value) = (0x2200, 0x12, 0x55)`. -/
theorem C1_witness :
    1 ≤ sdoWriteDatasize 0x55 ∧ sdoWriteDatasize 0x55 ≤ 4 ∧
    sdoWriteMsg 0x2200 0x12 0x55 =
      [0b00100011 ||| ((4 - sdoWriteDatasize 0x55) <<< 2),
       0x2200 % 256, 0x2200 / 256, 0x12,
       0x55 % 256, 0x55 / 256 % 256, 0x55 / 256 ^ 2 % 256,
       0x55 / 256 ^ 3 % 256] :=
  C1_theorem 0x2200 0x12 0x55 (by decide) (by decide)

/-- C2 (counterexample): on the abort response
`[0x80, 0x00, 0x20, 0x00, 0x00, 0x00, 0x02, 0x06]` the read returns plain
`None` without decoding the abort code: the result is identical for a
response carrying the different abort code `0x05040001` and for an empty
queue, so no `SdoAbort(0x06020000)` value is produced. -/
theorem C2_counterexample :
    sdoReadReturn 10 0x2000 0 [abortFrame606] = none ∧
    sdoReadReturn 10 0x2000 0 [abortFrame504] = none ∧
    sdoReadReturn 10 0x2000 0 [abortFrame606] =
      sdoReadReturn 10 0x2000 0 [abortFrame504] ∧
    sdoReadReturn 10 0x2000 0 [] = none := by decide

/-- C2 (amended): for every SDO read whose matched response frame has
`data[0] == 0x80`, the read classifies the exchange as an abort (the
`SDO read abort` counter path) and returns `None`; the 32-bit abort code
in `data[4..8]` is not decoded and not carried in the result. -/
theorem C2_theorem (nodeId index subindex : Nat) (queue : List CanFrame)
    (fr : CanFrame)
    (hfind : queue.find? (sdoReadMatch nodeId index subindex) = some fr)
    (h80 : fr.data.getD 0 0 = 0x80) :
    sdoReadOutcome nodeId index subindex queue = .abort ∧
    sdoReadReturn nodeId index subindex queue = none := by
  have h80n : fr.data[0]?.getD 0 = 0x80 := by
    simpa [List.getD_eq_getElem?_getD] using h80
  have hout : sdoReadOutcome nodeId index subindex queue = .abort := by
    rw [sdoReadOutcome, hfind]
    simp [h80n]
  exact ⟨hout, by rw [sdoReadReturn, hout]⟩

/-- C2 (witness): the amended statement at the concrete abort response
carrying code `0x06020000` for `read(10, 0x2000, 0)`. -/
theorem C2_witness :
    sdoReadOutcome 10 0x2000 0 [abortFrame606] = .abort ∧
    sdoReadReturn 10 0x2000 0 [abortFrame606] = none :=
  C2_theorem 10 0x2000 0 [abortFrame606] abortFrame606 (by decide) (by decide)

/-- C3: every SDO read sends its request to COB-ID `0x600 + nodeId` with
data `[0x40, index lo, index hi, subindex, 0, 0, 0, 0]`; a matched
non-abort expedited response is decoded as the little-endian integer of
the first `4 - ((data[0] >> 2) & 0b11)` bytes of `data[4..8]`; and for the
concrete response frame `(0x58A, [0x4B, 0x00, 0x10, 0x00, 0x92, 0x01, 0,
0])` the read `read(10, 0x1000, 0)` returns `0x0192`. -/
theorem C3_theorem (nodeId index subindex : Nat) (fr : CanFrame)
    (hi : index < 2 ^ 16)
    (hmatch : sdoReadMatch nodeId index subindex fr = true)
    (h80 : fr.data.getD 0 0 ≠ 0x80) :
    sdoReadCobid nodeId = 0x600 + nodeId ∧
    sdoReadRequest index subindex =
      [0x40, index % 256, index / 256, subindex, 0, 0, 0, 0] ∧
    sdoReadReturn nodeId index subindex [fr] =
      some (fromLE ((fr.data.drop 4).take
        (4 - ((fr.data.getD 0 0 >>> 2) &&& 0b11)))) ∧
    sdoReadReturn 10 0x1000 0 [readRespFrame] = some 0x0192 := by
  refine ⟨rfl, ?_, ?_, by decide⟩
  · have hidx : index / 256 % 256 = index / 256 := Nat.mod_eq_of_lt (by omega)
    simp [sdoReadRequest, MAX_DATABYTES, hidx, List.replicate]
  · have h80n : fr.data[0]?.getD 0 ≠ 0x80 := by
      simpa [List.getD_eq_getElem?_getD] using h80
    rw [sdoReadReturn, sdoReadOutcome]
    simp only [List.find?_cons, hmatch]
    simp [h80n]

/-- C3 (witness): the statement at the concrete exchange
`read(10, 0x1000, 0)` answered by `readRespFrame`. -/
theorem C3_witness :
    sdoReadCobid 10 = 0x600 + 10 ∧
    sdoReadRequest 0x1000 0 =
      [0x40, 0x1000 % 256, 0x1000 / 256, 0, 0, 0, 0, 0] ∧
    sdoReadReturn 10 0x1000 0 [readRespFrame] =
      some (fromLE ((readRespFrame.data.drop 4).take
        (4 - ((readRespFrame.data.getD 0 0 >>> 2) &&& 0b11)))) ∧
    sdoReadReturn 10 0x1000 0 [readRespFrame] = some 0x0192 :=
  C3_theorem 10 0x1000 0 readRespFrame (by decide) (by decide) (by decide)

/-- C4 (counterexample): the word packed by the controller for
`(validity, T, V1, V2) = (1, 0x120, 0x060, 0x013)` is `0x92018013`; its
bits 30..21 hold `0x090`, not the temperature `0x120` (which sits at bits
29..20), and its bits 10..1 hold `0x009`, not `0x013` (which sits at bits
9..0), refuting the claimed field positions. -/
theorem C4_counterexample :
    gatherMonitoring 0x120 0x060 0x013 = 0x92018013 ∧
    (gatherMonitoring 0x120 0x060 0x013 >>> 21) &&& (2 ^ 10 - 1) = 0x090 ∧
    (0x090 : Nat) ≠ 0x120 ∧
    (gatherMonitoring 0x120 0x060 0x013 >>> 1) &&& (2 ^ 10 - 1) = 0x009 ∧
    (0x009 : Nat) ≠ 0x013 := by decide

/-- C4 (amended): the packed 32-bit monitoring word places the validity
flag at bit 31, temperature at bits 29..20, voltage1 at bits 19..10 and
voltage2 at bits 9..0 (bit 30 unused), and the reader masks off the top
two bits and exposes exactly those three 10-bit fields: unpacking yields
`[voltage2, voltage1, temperature]` at extraction offsets 0, 10, 20. -/
theorem C4_theorem (t v1 v2 : Nat)
    (ht : t < 2 ^ 10) (hv1 : v1 < 2 ^ 10) (hv2 : v2 < 2 ^ 10) :
    (gatherMonitoring t v1 v2).testBit 31 = true ∧
    (gatherMonitoring t v1 v2 >>> 20) &&& (2 ^ 10 - 1) = t ∧
    (gatherMonitoring t v1 v2 >>> 10) &&& (2 ^ 10 - 1) = v1 ∧
    gatherMonitoring t v1 v2 &&& (2 ^ 10 - 1) = v2 ∧
    monitoringVals (gatherMonitoring t v1 v2) = [v2, v1, t] := by
  have hadd : gatherMonitoring t v1 v2 =
      2 ^ 31 + (t * 2 ^ 20 + (v1 * 2 ^ 10 + v2)) := by
    rw [gatherMonitoring, Nat.lor_assoc, Nat.lor_assoc,
      shiftLeft_lor_eq_add v1 v2 10 hv2,
      shiftLeft_lor_eq_add t _ 20 (by omega),
      shiftLeft_lor_eq_add 1 _ 31 (by omega), Nat.one_mul]
  have e2 : (gatherMonitoring t v1 v2 >>> 20) &&& (2 ^ 10 - 1) = t := by
    rw [hadd, Nat.shiftRight_eq_div_pow, and_two_pow_sub_one]
    omega
  have e1 : (gatherMonitoring t v1 v2 >>> 10) &&& (2 ^ 10 - 1) = v1 := by
    rw [hadd, Nat.shiftRight_eq_div_pow, and_two_pow_sub_one]
    omega
  have e0 : gatherMonitoring t v1 v2 &&& (2 ^ 10 - 1) = v2 := by
    rw [hadd, and_two_pow_sub_one]
    omega
  have e31 : (gatherMonitoring t v1 v2).testBit 31 = true := by
    rw [hadd, Nat.testBit_to_div_mod]
    have hq : (2 ^ 31 + (t * 2 ^ 20 + (v1 * 2 ^ 10 + v2))) / 2 ^ 31 % 2 = 1 := by
      omega
    rw [hq]
    decide
  refine ⟨e31, e2, e1, e0, ?_⟩
  have hr : List.range 3 = [0, 1, 2] := rfl
  simp only [monitoringVals, hr, List.map_cons, List.map_nil,
    Nat.zero_mul, Nat.one_mul, Nat.shiftRight_zero]
  rw [e0, show 2 * 10 = 20 from rfl, e2, e1]

/-- C4 (witness): the amended statement at the concrete fields
`(T, V1, V2) = (0x120, 0x060, 0x013)`. -/
theorem C4_witness :
    (gatherMonitoring 0x120 0x060 0x013).testBit 31 = true ∧
    (gatherMonitoring 0x120 0x060 0x013 >>> 20) &&& (2 ^ 10 - 1) = 0x120 ∧
    (gatherMonitoring 0x120 0x060 0x013 >>> 10) &&& (2 ^ 10 - 1) = 0x060 ∧
    gatherMonitoring 0x120 0x060 0x013 &&& (2 ^ 10 - 1) = 0x013 ∧
    monitoringVals (gatherMonitoring 0x120 0x060 0x013) =
      [0x013, 0x060, 0x120] :=
  C4_theorem 0x120 0x060 0x013 (by decide) (by decide) (by decide)

/-- C5 (counterexample): a failed status read does not leave the mirror
status unchanged: `run` assigns `Status = bool(sdoRead(...))`
unconditionally, so a chip whose status was `true` is overwritten with
`false` when the read fails. -/
theorem C5_counterexample :
    cmEx.status = true ∧
    (pollChip none none (fun _ => none) (fun _ => none) cmEx).status =
      false := ⟨rfl, rfl⟩

/-- C5 (amended): in one poll round, a failed read of the monitoring
triplet, of an ADC channel or of a register leaves the corresponding
mirror value unchanged, but a failed read of the status bit overwrites the
mirror status with `false` (the truth value of `None`). -/
theorem C5_theorem (monRead statusRead : Option Nat)
    (adcRead regRead : Nat → Option Nat) (st : ChipMirror) :
    (monRead = none →
      (pollChip monRead statusRead adcRead regRead st).monitoring =
        st.monitoring) ∧
    (∀ ch, adcRead ch = none →
      (pollChip monRead statusRead adcRead regRead st).adc ch =
        st.adc ch) ∧
    (∀ r, regRead r = none →
      (pollChip monRead statusRead adcRead regRead st).regs r =
        st.regs r) ∧
    (statusRead = none →
      (pollChip monRead statusRead adcRead regRead st).status = false) := by
  refine ⟨?_, ?_, ?_, ?_⟩
  · intro h
    simp [pollChip, h]
  · intro ch h
    by_cases h8 : ch < 8 <;> simp [pollChip, h8, h]
  · intro r h
    by_cases h13 : r < 13 <;> simp [pollChip, h13, h]
  · intro h
    simp [pollChip, h]

/-- C5 (witness): the amended statement at a concrete chip mirror whose
reads all fail. -/
theorem C5_witness :
    (pollChip none none (fun _ => none) (fun _ => none) cmEx).monitoring =
      cmEx.monitoring ∧
    (pollChip none none (fun _ => none) (fun _ => none) cmEx).adc 3 =
      cmEx.adc 3 ∧
    (pollChip none none (fun _ => none) (fun _ => none) cmEx).regs 5 =
      cmEx.regs 5 ∧
    (pollChip none none (fun _ => none) (fun _ => none) cmEx).status =
      false := by
  obtain ⟨h1, h2, h3, h4⟩ :=
    C5_theorem none none (fun _ => none) (fun _ => none) cmEx
  exact ⟨h1 rfl, h2 3 rfl, h3 5 rfl, h4 rfl⟩

/-- C6: the retry loop of `start` never increments its counter: after any
number of consecutive `BusEmptyError` rounds the counter is still 0 and
the guard `count < 3` still holds, so the loop never stops retrying and
the promised fatal exit after the third attempt is unreachable. -/
theorem C6_theorem (n : Nat) :
    startRetryCounts n = 0 ∧ startLoopGuard (startRetryCounts n) = true := by
  have h : startRetryCounts n = 0 := by
    induction n with
    | zero => rfl
    | succ k ih => simpa [startRetryCounts, startAttemptCount] using ih
  exact ⟨h, by simp [h, startLoopGuard]⟩

/-- C7: the receive queue is created as `deque([], 10)`, not with the
capacity 1000 promised by its own docstring: pushing 11 frames onto an
empty queue leaves only the 10 newest (the oldest frame is silently
dropped, with no `dropped_frames` counter anywhere in the code), and no
push can ever make the queue longer than 10 frames. -/
theorem C7_theorem :
    CAN_QUEUE_MAXLEN = 10 ∧
    CAN_QUEUE_MAXLEN ≠ 1000 ∧
    ((List.range 11).foldl (fun q i => queuePush q (mkFrame i)) []).length
      = 10 ∧
    ((List.range 11).foldl (fun q i => queuePush q (mkFrame i)) []).map
      CanFrame.cobid = [10, 9, 8, 7, 6, 5, 4, 3, 2, 1] ∧
    ∀ (q : List CanFrame) (fr : CanFrame), (queuePush q fr).length ≤ 10 := by
  refine ⟨rfl, by decide, by decide, by decide, ?_⟩
  intro q fr
  simp only [queuePush, CAN_QUEUE_MAXLEN, List.length_take]
  omega

/-- C8: for a top-level `Var` entry with access `RW`, a get-then-set(5)
-then-get sequence returns the original value, not 5: the `odEntry.value`
setter stores into the name-mangled slot `self.__value` while the getter
keeps returning `self.__val`, contradicting the class docstring
(objectDictionary.py lines 29-30); subentries behave correctly and
`RO`/`Const` sets are rejected on both levels. -/
theorem C8_theorem :
    odEntrySet ⟨.RW, false, some 0, none⟩ 5 =
      .ok ⟨.RW, false, some 0, some 5⟩ ∧
    odEntryGet ⟨.RW, false, some 0, some 5⟩ = .ok (some 0) ∧
    (Except.ok (some 0) : Except String (Option Nat)) ≠ .ok (some 5) ∧
    odSubEntrySet ⟨some .RW, false, false, some 0⟩ 5 =
      .ok ⟨some .RW, false, false, some 5⟩ ∧
    odSubEntryGet ⟨some .RW, false, false, some 5⟩ = .ok (some 5) ∧
    odEntrySet ⟨.RO, false, some 0, none⟩ 5 =
      .error "Entry may not be written!" ∧
    odEntrySet ⟨.CONST, false, some 0, none⟩ 5 =
      .error "Entry may not be written!" ∧
    odSubEntrySet ⟨some .RO, false, false, some 0⟩ 5 =
      .error "Entry may not be written!" ∧
    odSubEntrySet ⟨some .CONST, false, false, some 0⟩ 5 =
      .error "Entry may not be written!" := by
  refine ⟨?_, ?_, ?_, ?_, ?_, ?_, ?_, ?_, ?_⟩ <;>
    simp [odEntrySet, odEntryGet, odSubEntrySet, odSubEntryGet]

/-- C9: for every 16-bit bitmap value, chip `i` is on the connected list
exactly when bit `i` of the bitmap is set (least-significant bit = chip
0), and for bitmap `0x0005` the list iterated by the poll loop is exactly
`[0, 2]`. -/
theorem C9_theorem (val i : Nat) (hval : val < 2 ^ 16) :
    (i ∈ connectedPSPPs val ↔ i < 16 ∧ val.testBit i = true) ∧
    connectedPSPPs 0x0005 = [0, 2] := by
  refine ⟨?_, by decide⟩
  rw [connectedPSPPs, List.mem_filter, List.mem_range]
  constructor
  · rintro ⟨h16, hp⟩
    refine ⟨h16, ?_⟩
    rw [bin016_reverse_getD val i h16] at hp
    rw [Nat.testBit_to_div_mod]
    simpa using hp
  · rintro ⟨h16, hbit⟩
    refine ⟨h16, ?_⟩
    rw [bin016_reverse_getD val i h16]
    rw [Nat.testBit_to_div_mod] at hbit
    simpa using hbit

/-- C9 (witness): the statement at the concrete bitmap `0x0005` and chip
index 2. -/
theorem C9_witness :
    (2 ∈ connectedPSPPs 0x0005 ↔ 2 < 16 ∧ Nat.testBit 0x0005 2 = true) ∧
    connectedPSPPs 0x0005 = [0, 2] :=
  C9_theorem 0x0005 2 (by decide)

/-- C10 (counterexample): with `direct_access = True`, setting 5 on a
`Const` top-level `Var` entry succeeds but does not store an observable
value: the getter still returns the old value 7, because the setter
stores into the dead `self.__value` slot. -/
theorem C10_counterexample :
    odEntrySet ⟨.CONST, true, some 7, none⟩ 5 =
      .ok ⟨.CONST, true, some 7, some 5⟩ ∧
    odEntryGet ⟨.CONST, true, some 7, some 5⟩ = .ok (some 7) ∧
    (Except.ok (some 7) : Except String (Option Nat)) ≠ .ok (some 5) := by
  refine ⟨?_, ?_, ?_⟩ <;> simp [odEntrySet, odEntryGet]

/-- C10 (amended): with `direct_access = True` every value setter succeeds
regardless of the access attribute; for subentries the written value is
stored and returned by a subsequent get (unless the slot is `WO` or
reserved, whose reads still fail), while for top-level entries the store
lands in the dead slot and the getter result is unchanged. -/
theorem C10_theorem (v : Nat) (se : OdSubEntry) (e : OdEntryVar)
    (hse : se.directAccess = true) (he : e.directAccess = true) :
    odSubEntrySet se v = .ok { se with value := some v } ∧
    (se.attr ≠ some .WO → se.reserved = false →
      odSubEntryGet { se with value := some v } = .ok (some v)) ∧
    (se.attr = some .WO →
      odSubEntryGet { se with value := some v } = .error "WO") ∧
    (se.attr ≠ some .WO → se.reserved = true →
      odSubEntryGet { se with value := some v } = .error "reserved") ∧
    odEntrySet e v = .ok { e with value := some v } ∧
    odEntryGet { e with value := some v } = odEntryGet e := by
  refine ⟨?_, ?_, ?_, ?_, ?_, ?_⟩
  · rw [odSubEntrySet, if_pos (Or.inr (Or.inr hse))]
  · intro hwo hres
    simp [odSubEntryGet, hwo, hres]
  · intro hwo
    simp [odSubEntryGet, hwo]
  · intro hwo hres
    simp [odSubEntryGet, hwo, hres]
  · rw [odEntrySet, if_pos (Or.inr (Or.inr he))]
  · simp [odEntryGet]

/-- C10 (witness): the amended statement at a concrete `RO` subentry and a
concrete `Const` top-level entry, both with `direct_access = True`. -/
theorem C10_witness :
    odSubEntrySet ⟨some .RO, false, true, some 1⟩ 9 =
      .ok ⟨some .RO, false, true, some 9⟩ ∧
    odSubEntryGet ⟨some .RO, false, true, some 9⟩ = .ok (some 9) ∧
    odEntrySet ⟨.CONST, true, some 7, none⟩ 9 =
      .ok ⟨.CONST, true, some 7, some 9⟩ ∧
    odEntryGet ⟨.CONST, true, some 7, some 9⟩ =
      odEntryGet ⟨.CONST, true, some 7, none⟩ := by
  obtain ⟨h1, h2, _, _, h5, h6⟩ :=
    C10_theorem 9 ⟨some .RO, false, true, some 1⟩ ⟨.CONST, true, some 7, none⟩
      rfl rfl
  exact ⟨h1, h2 (by decide) rfl, h5, h6⟩
